import Mathlib

/-!
# FerretDB — shallow embedding and verification

This file embeds, in Lean 4, the parts of the FerretDB sources relevant to the
delete command handler (`MsgDelete`, tigris backend), the PostgreSQL catalog
operations (`internal/handlers/pg/pgdb/collections.go`), and the query-iterator
behaviour exercised by `TestQueryDocuments`.  Pure Go functions become Lean
functions; calls into the backend (PostgreSQL / tigris driver) become explicit
parameters carrying the backend's answer, and the DDL statements issued are
collected into an explicit effect trace.
-/

namespace FerretDB

/-! ## Value model (`internal/types`, minimal slice)

Only the variants that appear in the delete reply documents are embedded:
doubles (here: exact rationals, the only double produced is `1.0`), int32
(as a mathematical integer kept in range by explicit wrapping), strings,
arrays and nested documents. -/

/-- A BSON-style value (slice of the `internal/types` variants used here). -/
inductive BValue where
  | double (q : Rat)
  | int32 (n : Int)
  | str (s : String)
  | array (xs : List BValue)
  | doc (fields : List (String × BValue))

/-- A document: an ordered association list of keyed values
(`internal/types.Document`, key order observable). -/
abbrev Document := List (String × BValue)

/-- Modelled from the spec (§4.1 Value Model): `Document.Get` — key lookup,
first (unique) binding. -/
def docGet (d : Document) (k : String) : Option BValue :=
  match d.find? (fun p => p.1 = k) with
  | some p => some p.2
  | none => none

/-- Modelled from the spec (§4.1 Value Model): `Document.Set` — replaces the
value in place when the key is present, otherwise appends the binding. -/
def docSet (d : Document) (k : String) (v : BValue) : Document :=
  if d.any (fun p => p.1 = k) then
    d.map (fun p => if p.1 = k then (k, v) else p)
  else
    d ++ [(k, v)]

/-! ## Errors and 32-bit wrapping -/

/-- A command error as it reaches the write-error collector: a numeric code and
a message (`common` error values carry both). -/
structure CmdErr where
  code : Int
  errmsg : String
deriving DecidableEq

/-- Two's-complement wrapping of an integer into the signed 32-bit range,
the meaning of Go's `int32(x)` conversion and of `int32` addition. -/
def wrap32 (n : Int) : Int := (n + 2 ^ 31) % 2 ^ 32 - 2 ^ 31

/-! ## `MsgDelete` (tigris handler, `src/unnamed/part_000`)

The handler's statement loop (lines 142–162) and reply assembly
(lines 164–178) are embedded directly.  The per-statement body `processQuery`
(lines 58–140) is embedded with the backend answers passed in as values:
the fetched rows (`h.db.QueryDocuments`), the matcher verdict per document
(`common.FilterDocument`), and the outcome of the driver delete call. -/

/-- `ordered` is an optional boolean parameter defaulting to `true`
(part_000 lines 52–55). -/
def orderedParam (o : Option Bool) : Bool := o.getD true

/-- The list of `_id` values extracted from the documents submitted for
deletion (part_000 lines 189–193: `ids` has one entry per document). -/
def deleteIds (docs : List Document) : List (Option BValue) :=
  docs.map (fun d => docGet d "_id")

/-- `Handler.delete` (part_000 lines 188–213): builds the per-`_id` filter and
issues the driver delete.  The driver's reported count is discarded (`_, err :=`);
on success the function returns `len(ids)`, on driver error it returns the error. -/
def handlerDelete (docs : List Document) (backend : Except CmdErr Nat) : Except CmdErr Nat :=
  match backend with
  | Except.error e => Except.error e
  | Except.ok _ => Except.ok (deleteIds docs).length

/-- The filtering loop of `processQuery` (part_000 lines 107–121): keep the
documents the matcher accepts, in order, propagating the first matcher error. -/
def filterMatched (filter : Document → Except CmdErr Bool) :
    List Document → Except CmdErr (List Document)
  | [] => Except.ok []
  | d :: ds =>
    match filter d with
    | Except.error e => Except.error e
    | Except.ok true => (filterMatched filter ds).map (fun r => d :: r)
    | Except.ok false => filterMatched filter ds

/-- Modelled from the spec (§4.3 Limit function; `common.LimitDocuments` is not
under src/, only its call site in `MsgDelete`): `limit == 0` is unlimited,
positive values bound the kept count, negative values behave as their absolute
value. -/
def LimitDocuments (docs : List Document) (limit : Int) : List Document :=
  if limit = 0 then docs else docs.take limit.natAbs

/-- The body of `processQuery` after parameter extraction (part_000
lines 101–139): filter the fetched documents, apply the limit, return `0`
added deletions when nothing matched (early `return nil`), otherwise issue
the delete and return its count. -/
def processQuery (fetched : List Document) (filter : Document → Except CmdErr Bool)
    (limit : Int) (backend : Except CmdErr Nat) : Except CmdErr Nat :=
  match filterMatched filter fetched with
  | Except.error e => Except.error e
  | Except.ok matched =>
    let resDocs := LimitDocuments matched limit
    if resDocs.length = 0 then Except.ok 0
    else handlerDelete resDocs backend

/-- State threaded through the statement loop of `MsgDelete`: the running
`deleted` counter (an `int32`), the collected write errors with their statement
indices (`delErrors`), the indices attempted so far, and whether the loop has
stopped (`break`). -/
structure DeleteLoopState where
  deleted : Int
  writeErrors : List (Nat × CmdErr)
  attempted : List Nat
  stopped : Bool
deriving DecidableEq

/-- Initial loop state: no deletions, no errors, nothing attempted. -/
def deleteLoopInit : DeleteLoopState := ⟨0, [], [], false⟩

/-- One iteration of the statement loop (part_000 lines 147–161): if the loop
has broken, do nothing; otherwise run `processQuery i`; on success add the
returned count to `deleted` (with `int32` wrapping); on error append
`(i, err)` to the write errors and stop iff `ordered`. -/
def deleteLoopStep (process : Nat → Except CmdErr Nat) (ordered : Bool)
    (st : DeleteLoopState) (i : Nat) : DeleteLoopState :=
  if st.stopped then st
  else
    match process i with
    | Except.ok res =>
      { st with deleted := wrap32 (st.deleted + wrap32 res), attempted := st.attempted ++ [i] }
    | Except.error e =>
      { st with writeErrors := st.writeErrors ++ [(i, e)], attempted := st.attempted ++ [i],
                stopped := ordered }

/-- The statement loop of `MsgDelete` (part_000 lines 142–162) over a
`deletes` array of length `len`. -/
def deleteLoop (process : Nat → Except CmdErr Nat) (ordered : Bool) (len : Nat) :
    DeleteLoopState :=
  (List.range len).foldl (deleteLoopStep process ordered) deleteLoopInit

/-- One entry of the `writeErrors` array. Modelled from the spec (§4.4 step 4;
`common.WriteErrors.Document` is not under src/): `{ index, code, errmsg }`,
the index converted to `int32`. -/
def writeErrorEntry (p : Nat × CmdErr) : BValue :=
  BValue.doc [("index", BValue.int32 (wrap32 p.1)),
              ("code", BValue.int32 p.2.code),
              ("errmsg", BValue.str p.2.errmsg)]

/-- Modelled from the spec (§4.4 step 4; `common.WriteErrors.Document` is not
under src/): the document `{ writeErrors: [ { index, code, errmsg }, … ] }`. -/
def writeErrorsDocument (errs : List (Nat × CmdErr)) : Document :=
  [("writeErrors", BValue.array (errs.map writeErrorEntry))]

/-- Reply assembly of `MsgDelete` (part_000 lines 164–175): when write errors
were collected the reply is their document, otherwise `{ ok: 1.0 }`; in both
cases `n` is then set to the `deleted` counter. -/
def buildDeleteReply (errs : List (Nat × CmdErr)) (deleted : Int) : Document :=
  let replyDoc := if errs.length > 0 then writeErrorsDocument errs
                  else [("ok", BValue.double 1)]
  docSet replyDoc "n" (BValue.int32 deleted)

/-- The whole of `MsgDelete` after parameter extraction: run the statement loop
and assemble the reply from its final state. -/
def msgDeleteReply (process : Nat → Except CmdErr Nat) (o : Option Bool) (len : Nat) :
    Document :=
  buildDeleteReply (deleteLoop process (orderedParam o) len).writeErrors
    (deleteLoop process (orderedParam o) len).deleted

/-! ## pgdb catalog operations (`internal/handlers/pg/pgdb/collections.go`)

The PostgreSQL-side state visible to these functions is embedded as the state
of one schema: the list of physical tables present in it and the settings
document's `collections` mapping (an ordered association list, as stored by
`types.Document`).  `schemaExists` becomes the `Option`; the outcome of the
`CREATE TABLE` statement — which can only fail under concurrent DDL — is an
input parameter; the settings update and the `CREATE TABLE` issued are
recorded in an effect trace. -/

/-- Character class `[a-zA-Z_]` (first character of the collection-name regex). -/
def isWordStart (c : Char) : Bool :=
  ('a' ≤ c && c ≤ 'z') || ('A' ≤ c && c ≤ 'Z') || c = '_'

/-- Character class `[a-zA-Z0-9_]` (subsequent characters of the regex). -/
def isWordChar (c : Char) : Bool :=
  isWordStart c || ('0' ≤ c && c ≤ '9')

/-- `validateCollectionNameRe` (collections.go line 36): the anchored regex
`^[a-zA-Z_][a-zA-Z0-9_]{0,119}$` — one leading word-start character followed by
at most 119 word characters. -/
def validateCollectionNameRe (s : String) : Bool :=
  match s.toList with
  | [] => false
  | c :: cs => isWordStart c && decide (cs.length ≤ 119) && cs.all isWordChar

/-- Go's `strings.HasPrefix(s, pre)`: `pre` is a leading substring of `s`. -/
def strHasPre (pre s : String) : Bool := pre.toList.isPrefixOf s.toList

/-- The pgdb error values returned by the catalog operations
(`ErrInvalidTableName`, `ErrSchemaNotExist`, `ErrAlreadyExist`,
`ErrTableNotExist`; `lazy` stands for a `lazyerrors`-wrapped unmapped error). -/
inductive PgErr where
  | invalidTableName
  | schemaNotExist
  | alreadyExist
  | tableNotExist
  | lazy (msg : String)
deriving DecidableEq

/-- The state of one PostgreSQL schema as consulted by the catalog functions:
its physical tables (`tables(ctx, querier, db)`) and the `collections` mapping
of its settings document (`getSettingsTable`). -/
structure PgSchemaState where
  tables : List String
  settingsCollections : List (String × String)
deriving DecidableEq

/-- `types.Document.Set` on a string-valued mapping: replace in place when the
key is present, append otherwise (used for `collections.Set(collection, table)`). -/
def assocSet (m : List (String × String)) (k v : String) : List (String × String) :=
  if m.any (fun p => p.1 = k) then
    m.map (fun p => if p.1 = k then (k, v) else p)
  else
    m ++ [(k, v)]

/-- Key membership in the mapping (`collections.Has(collection)`). -/
def assocHas (m : List (String × String)) (k : String) : Bool :=
  m.any (fun p => p.1 = k)

/-- Outcome of the backend executing `CREATE TABLE IF NOT EXISTS …`
(collections.go lines 143–160): success, one of the three duplicate error
codes, or any other error (carrying its code). -/
inductive ExecCreateResult where
  | ok
  | uniqueViolation
  | duplicateObject
  | duplicateTable
  | otherError (code : String)
deriving DecidableEq

/-- Whether the `CREATE TABLE` outcome is one of the three duplicate codes
mapped to `ErrAlreadyExist` (collections.go line 154). -/
def ExecCreateResult.isDuplicate : ExecCreateResult → Bool
  | ExecCreateResult.uniqueViolation => true
  | ExecCreateResult.duplicateObject => true
  | ExecCreateResult.duplicateTable => true
  | _ => false

/-- DDL effects issued by `CreateCollection`, in order: the settings-table
update (`updateSettingsTable`) and the `CREATE TABLE` statement. -/
inductive PgEffect where
  | updateSettings (collections : List (String × String))
  | createTable (table : String)
deriving DecidableEq

/-- `CreateCollection` (collections.go lines 95–161).  `fmtName` stands for
`formatCollectionName` (defined elsewhere in the repository), `reservedPre` for
the reserved metadata-table name prefix; `schema` is `none` when the schema
does not exist; `execResult` is the backend's answer to the `CREATE TABLE`.
Returns the function's result together with the trace of issued effects. -/
def CreateCollection (fmtName : String → String) (reservedPre : String)
    (schema : Option PgSchemaState) (collection : String)
    (execResult : ExecCreateResult) : Except PgErr Unit × List PgEffect :=
  if !validateCollectionNameRe collection || strHasPre reservedPre collection then
    (Except.error PgErr.invalidTableName, [])
  else
    match schema with
    | none => (Except.error PgErr.schemaNotExist, [])
    | some s =>
      let table := fmtName collection
      if s.tables.contains table then
        (Except.error PgErr.alreadyExist, [])
      else if assocHas s.settingsCollections collection then
        (Except.ok (), [])
      else
        let newColls := assocSet s.settingsCollections collection table
        let effects := [PgEffect.updateSettings newColls, PgEffect.createTable table]
        match execResult with
        | ExecCreateResult.ok => (Except.ok (), effects)
        | ExecCreateResult.uniqueViolation => (Except.error PgErr.alreadyExist, effects)
        | ExecCreateResult.duplicateObject => (Except.error PgErr.alreadyExist, effects)
        | ExecCreateResult.duplicateTable => (Except.error PgErr.alreadyExist, effects)
        | ExecCreateResult.otherError c => (Except.error (PgErr.lazy c), effects)

/-- Code-point comparison of character lists: lexicographic `≤` used by Go's
`slices.Sort` on (valid UTF-8) strings. -/
def lexLe : List Char → List Char → Bool
  | [], _ => true
  | _ :: _, [] => false
  | a :: as, b :: bs =>
    if a.toNat < b.toNat then true
    else if b.toNat < a.toNat then false
    else lexLe as bs

/-- Code-point order on strings. -/
def strLe (a b : String) : Bool := lexLe a.toList b.toList

/-- `Collections` (collections.go lines 45–72): `ErrSchemaNotExist` when the
schema is absent, otherwise the keys of the settings `collections` mapping,
sorted on read (`slices.Sort`). -/
def Collections (schema : Option PgSchemaState) : Except PgErr (List String) :=
  match schema with
  | none => Except.error PgErr.schemaNotExist
  | some s => Except.ok ((s.settingsCollections.map Prod.fst).mergeSort strLe)

/-! ## Query iterator (`TestQueryDocuments`, pg backend)

The iterator implementation (`pgPool.QueryDocuments` and its batch channel) is
not under src/ — only its test is — so it is modelled from the spec. -/

/-- Modelled from the spec (§4.3 Cursor): the consumer-visible state of a query
iterator — the batches the producer will deliver, and the latched producer
error surfaced by `next()`/`batch()`.  Constructed over a non-existing table,
the iterator has no batches and no error. -/
structure QueryIterator where
  batches : List (List Document)
  latchedErr : Option CmdErr

/-- Modelled from the spec (§4.3 Cursor, "Non-existing table"): constructing
the iterator (`QueryDocuments`) over an existing table yields the produced
batches; over a non-existing table it yields an empty, error-free iterator. -/
def queryDocuments (tableExists : Bool) (produced : List (List Document)) : QueryIterator :=
  if tableExists then ⟨produced, none⟩ else ⟨[], none⟩

/-- Modelled from the spec (§4.3 Cursor): `next()` — `true` and advance while a
batch remains, `false` once exhausted. -/
def iterNext : QueryIterator → Bool × QueryIterator
  | ⟨[], e⟩ => (false, ⟨[], e⟩)
  | ⟨_ :: bs, e⟩ => (true, ⟨bs, e⟩)

/-- Draining the iterator: the concatenation of all batches, what a
`for it.Next()` consumer loop collects in total. -/
def iterDrain (it : QueryIterator) : List Document := it.batches.flatten

/-- Modelled from the spec (§7 User-visible behavior, §8 item 6): the `find`
reply over the documents drained from the iterator — `ok: 1.0` and the yielded
count. -/
def msgFindReply (tableExists : Bool) (produced : List (List Document)) : Document :=
  [("ok", BValue.double 1),
   ("n", BValue.int32 (iterDrain (queryDocuments tableExists produced)).length)]

/-! ## Concrete inputs used to evaluate the theorems -/

/-- A concrete error value. -/
def errW : CmdErr := ⟨2, "bad value"⟩

/-- A concrete per-statement outcome function: statement 1 fails, the others
each delete one document. -/
def procW : Nat → Except CmdErr Nat :=
  fun i => if i = 1 then Except.error errW else Except.ok 1

/-- A concrete document. -/
def docW1 : Document := [("_id", BValue.str "1")]

/-- Another concrete document. -/
def docW2 : Document := [("_id", BValue.str "2")]

/-- A concrete schema state: no physical tables, one dangling catalog entry. -/
def pgSchemaW : PgSchemaState := ⟨[], [("users", "users")]⟩

/-- A concrete schema state with one physical table and an empty catalog. -/
def pgSchemaW2 : PgSchemaState := ⟨["users"], []⟩

/-! ## Helper lemmas: the `MsgDelete` statement loop -/

/-- A stopped loop state absorbs any further iteration. -/
theorem deleteLoopStep_stopped (p : Nat → Except CmdErr Nat) (o : Bool)
    (st : DeleteLoopState) (i : Nat) (h : st.stopped = true) :
    deleteLoopStep p o st i = st := by
  simp [deleteLoopStep, h]

/-- A stopped loop state absorbs the rest of the fold. -/
theorem foldl_deleteLoopStep_stopped (p : Nat → Except CmdErr Nat) (o : Bool)
    (l : List Nat) (st : DeleteLoopState) (h : st.stopped = true) :
    l.foldl (deleteLoopStep p o) st = st := by
  induction l with
  | nil => rfl
  | cons a l ih =>
    rw [List.foldl_cons, deleteLoopStep_stopped p o st a h]
    exact ih

/-- Unordered mode never stops: every index is attempted and every error is
collected at its index. -/
theorem foldl_deleteLoopStep_unordered (p : Nat → Except CmdErr Nat) (l : List Nat) :
    ∀ st : DeleteLoopState, st.stopped = false →
      ((l.foldl (deleteLoopStep p false) st).stopped = false ∧
       (l.foldl (deleteLoopStep p false) st).attempted = st.attempted ++ l ∧
       (l.foldl (deleteLoopStep p false) st).writeErrors =
         st.writeErrors ++ l.filterMap (fun i =>
           match p i with
           | Except.error e => some (i, e)
           | Except.ok _ => none)) := by
  induction l with
  | nil => intro st h; simp [h]
  | cons a l ih =>
    intro st h
    rw [List.foldl_cons]
    cases hp : p a with
    | ok r =>
      have hstep : deleteLoopStep p false st a =
          { st with deleted := wrap32 (st.deleted + wrap32 r),
                    attempted := st.attempted ++ [a] } := by
        simp [deleteLoopStep, h, hp]
      have hst : (deleteLoopStep p false st a).stopped = false := by rw [hstep]; exact h
      obtain ⟨h1, h2, h3⟩ := ih (deleteLoopStep p false st a) hst
      refine ⟨h1, ?_, ?_⟩
      · rw [h2, hstep]; simp
      · rw [h3, hstep]; simp [List.filterMap_cons, hp]
    | error e =>
      have hstep : deleteLoopStep p false st a =
          { st with writeErrors := st.writeErrors ++ [(a, e)],
                    attempted := st.attempted ++ [a], stopped := false } := by
        simp [deleteLoopStep, h, hp]
      have hst : (deleteLoopStep p false st a).stopped = false := by rw [hstep]
      obtain ⟨h1, h2, h3⟩ := ih (deleteLoopStep p false st a) hst
      refine ⟨h1, ?_, ?_⟩
      · rw [h2, hstep]; simp
      · rw [h3, hstep]; simp [List.filterMap_cons, hp]

/-- Ordered mode over a run of successful statements: every index of the run is
attempted, no error is collected, and the loop has not stopped. -/
theorem foldl_deleteLoopStep_ordered_ok (p : Nat → Except CmdErr Nat) (l : List Nat) :
    ∀ st : DeleteLoopState, st.stopped = false →
      (∀ i ∈ l, ∃ r, p i = Except.ok r) →
      ((l.foldl (deleteLoopStep p true) st).stopped = false ∧
       (l.foldl (deleteLoopStep p true) st).attempted = st.attempted ++ l ∧
       (l.foldl (deleteLoopStep p true) st).writeErrors = st.writeErrors) := by
  induction l with
  | nil => intro st h _; simp [h]
  | cons a l ih =>
    intro st h hok
    obtain ⟨r, hr⟩ := hok a (List.mem_cons_self a l)
    rw [List.foldl_cons]
    have hstep : deleteLoopStep p true st a =
        { st with deleted := wrap32 (st.deleted + wrap32 r),
                  attempted := st.attempted ++ [a] } := by
      simp [deleteLoopStep, h, hr]
    have hst : (deleteLoopStep p true st a).stopped = false := by rw [hstep]; exact h
    obtain ⟨h1, h2, h3⟩ :=
      ih (deleteLoopStep p true st a) hst (fun i hi => hok i (List.mem_cons_of_mem a hi))
    refine ⟨h1, ?_, ?_⟩
    · rw [h2, hstep]; simp
    · rw [h3, hstep]

/-! ## Claim theorems -/

/-- C1: in a delete command whose first failing statement is at index `j`,
`ordered: true` (the default when the parameter is absent) stops the loop at
`j` — exactly statements `0..j` are attempted and `writeErrors` holds the one
error at index `j` — while `ordered: false` attempts every statement and
collects every error at the index of its statement in the original array. -/
theorem msgDelete_ordered_unordered (process : Nat → Except CmdErr Nat) (len j : Nat)
    (e : CmdErr) (hj : j < len)
    (hok : ∀ i, i < j → ∃ r, process i = Except.ok r)
    (he : process j = Except.error e) :
    orderedParam none = true ∧
    (deleteLoop process true len).attempted = List.range (j + 1) ∧
    (deleteLoop process true len).writeErrors = [(j, e)] ∧
    (deleteLoop process false len).attempted = List.range len ∧
    (deleteLoop process false len).writeErrors =
      (List.range len).filterMap (fun i =>
        match process i with
        | Except.error er => some (i, er)
        | Except.ok _ => none) := by
  have hsplit : len = (j + 1) + (len - (j + 1)) := by omega
  have hrange : List.range len =
      (List.range j ++ [j]) ++ (List.range (len - (j + 1))).map (fun x => (j + 1) + x) := by
    rw [hsplit, List.range_add, List.range_succ, Nat.add_sub_cancel_left]
  have hpre := foldl_deleteLoopStep_ordered_ok process (List.range j) deleteLoopInit rfl
    (fun i hi => hok i (List.mem_range.mp hi))
  obtain ⟨hs1, hs2, hs3⟩ := hpre
  have hmid : ((List.range j).foldl (deleteLoopStep process true) deleteLoopInit).stopped
      = false := hs1
  have hstepj : deleteLoopStep process true
      ((List.range j).foldl (deleteLoopStep process true) deleteLoopInit) j =
      { (List.range j).foldl (deleteLoopStep process true) deleteLoopInit with
        writeErrors :=
          ((List.range j).foldl (deleteLoopStep process true) deleteLoopInit).writeErrors
            ++ [(j, e)],
        attempted :=
          ((List.range j).foldl (deleteLoopStep process true) deleteLoopInit).attempted
            ++ [j],
        stopped := true } := by
    simp [deleteLoopStep, hmid, he]
  refine ⟨rfl, ?_, ?_, ?_, ?_⟩
  · show (deleteLoop process true len).attempted = List.range (j + 1)
    unfold deleteLoop
    rw [hrange, List.foldl_append, List.foldl_append, List.foldl_cons, List.foldl_nil, hstepj,
      foldl_deleteLoopStep_stopped _ _ _ _ rfl]
    show (((List.range j).foldl (deleteLoopStep process true) deleteLoopInit).attempted
      ++ [j]) = List.range (j + 1)
    rw [hs2, List.range_succ]
    rfl
  · unfold deleteLoop
    rw [hrange, List.foldl_append, List.foldl_append, List.foldl_cons, List.foldl_nil, hstepj,
      foldl_deleteLoopStep_stopped _ _ _ _ rfl]
    show (((List.range j).foldl (deleteLoopStep process true) deleteLoopInit).writeErrors
      ++ [(j, e)]) = [(j, e)]
    rw [hs3]
    rfl
  · exact (foldl_deleteLoopStep_unordered process (List.range len) deleteLoopInit rfl).2.1
  · exact (foldl_deleteLoopStep_unordered process (List.range len) deleteLoopInit rfl).2.2

/-- Evaluation of `msgDelete_ordered_unordered` on a concrete three-statement
delete whose middle statement fails. -/
theorem msgDelete_ordered_unordered_witness :
    orderedParam none = true ∧
    (deleteLoop procW true 3).attempted = List.range (1 + 1) ∧
    (deleteLoop procW true 3).writeErrors = [(1, errW)] ∧
    (deleteLoop procW false 3).attempted = List.range 3 ∧
    (deleteLoop procW false 3).writeErrors =
      (List.range 3).filterMap (fun i =>
        match procW i with
        | Except.error er => some (i, er)
        | Except.ok _ => none) :=
  msgDelete_ordered_unordered procW 3 1 errW (by omega)
    (fun i hi => ⟨1, by have h0 : i = 0 := by omega
                        rw [h0]; rfl⟩)
    rfl

/-- C2: the delete reply always carries `n` (the running `int32` count); when
the statement loop collected no write error the reply additionally carries
`ok: 1.0` and no `writeErrors`; when it collected at least one, the reply
carries the `writeErrors` array (entries `index`/`code`/`errmsg`, built by
`writeErrorEntry`) and no `ok` field. -/
theorem msgDelete_reply_shape (process : Nat → Except CmdErr Nat) (o : Option Bool)
    (len : Nat) :
    docGet (msgDeleteReply process o len) "n" =
      some (BValue.int32 (deleteLoop process (orderedParam o) len).deleted) ∧
    ((deleteLoop process (orderedParam o) len).writeErrors = [] →
      docGet (msgDeleteReply process o len) "ok" = some (BValue.double 1) ∧
      docGet (msgDeleteReply process o len) "writeErrors" = none) ∧
    ((deleteLoop process (orderedParam o) len).writeErrors ≠ [] →
      docGet (msgDeleteReply process o len) "writeErrors" =
        some (BValue.array
          ((deleteLoop process (orderedParam o) len).writeErrors.map writeErrorEntry)) ∧
      docGet (msgDeleteReply process o len) "ok" = none) := by
  unfold msgDeleteReply
  generalize (deleteLoop process (orderedParam o) len).deleted = d
  generalize (deleteLoop process (orderedParam o) len).writeErrors = errs
  cases errs with
  | nil => exact ⟨rfl, fun _ => ⟨rfl, rfl⟩, fun h => absurd rfl h⟩
  | cons e es =>
    refine ⟨?_, fun h => absurd h (by simp), fun _ => ⟨?_, ?_⟩⟩ <;>
      simp [buildDeleteReply, docSet, docGet, writeErrorsDocument]

/-- Evaluation of `msgDelete_reply_shape` on concrete delete commands, one with
a failing statement and one with none. -/
theorem msgDelete_reply_shape_witness :
    docGet (msgDeleteReply procW (some false) 3) "writeErrors" =
      some (BValue.array
        ((deleteLoop procW (orderedParam (some false)) 3).writeErrors.map writeErrorEntry)) ∧
    docGet (msgDeleteReply procW (some true) 0) "ok" = some (BValue.double 1) :=
  ⟨((msgDelete_reply_shape procW (some false) 3).2.2 (by decide)).1,
   ((msgDelete_reply_shape procW (some true) 0).2.1 (by decide)).1⟩

/-- C10: the per-statement count added to `n` is the length of the `_id` list
built from the filtered, limited result — whatever count `r` the backend
reports for the delete call. -/
theorem delete_count_from_submitted_ids (fetched : List Document)
    (filter : Document → Except CmdErr Bool) (limit : Int)
    (matched : List Document) (r : Nat)
    (hm : filterMatched filter fetched = Except.ok matched) :
    processQuery fetched filter limit (Except.ok r) =
      Except.ok (deleteIds (LimitDocuments matched limit)).length := by
  simp only [processQuery, hm]
  by_cases hz : (LimitDocuments matched limit).length = 0
  · simp [hz, deleteIds]
  · simp [hz, handlerDelete]

/-- Evaluation of `delete_count_from_submitted_ids` on two concrete documents
with an all-accepting matcher and an arbitrary backend-reported count of 77. -/
theorem delete_count_from_submitted_ids_witness :
    processQuery [docW1, docW2] (fun _ => Except.ok true) 0 (Except.ok 77) =
      Except.ok (deleteIds (LimitDocuments [docW1, docW2] 0)).length :=
  delete_count_from_submitted_ids [docW1, docW2] (fun _ => Except.ok true) 0
    [docW1, docW2] 77 rfl

/-- C7: the limit function over a signed 64-bit limit — `0` leaves the list
unbounded, `1` keeps at most one document, any positive value bounds the kept
count by that value, and a negative value behaves as its absolute value. -/
theorem limitDocuments_sign_semantics (docs : List Document) (limit : Int) :
    (limit = 0 → LimitDocuments docs limit = docs) ∧
    (LimitDocuments docs 1).length ≤ 1 ∧
    (0 < limit → ((LimitDocuments docs limit).length : Int) ≤ limit) ∧
    (limit < 0 → LimitDocuments docs limit = LimitDocuments docs (-limit)) := by
  refine ⟨fun h => by simp [LimitDocuments, h], ?_, fun h => ?_, fun h => ?_⟩
  · simp only [LimitDocuments, if_neg one_ne_zero, Int.natAbs_one]
    have := List.length_take 1 docs
    omega
  · have hne : limit ≠ 0 := by omega
    simp only [LimitDocuments, if_neg hne, List.length_take]
    have h1 : (limit.natAbs : Int) = limit := Int.natAbs_of_nonneg (le_of_lt h)
    have h2 : min limit.natAbs docs.length ≤ limit.natAbs := min_le_left _ _
    omega
  · have hne : limit ≠ 0 := by omega
    have hne2 : -limit ≠ 0 := by omega
    simp [LimitDocuments, hne, hne2]

/-- Evaluation of `limitDocuments_sign_semantics` on a concrete two-document
list at limits `0` and `-5`. -/
theorem limitDocuments_sign_semantics_witness :
    LimitDocuments [docW1, docW2] 0 = [docW1, docW2] ∧
    LimitDocuments [docW1, docW2] (-5) = LimitDocuments [docW1, docW2] (-(-5)) :=
  ⟨(limitDocuments_sign_semantics [docW1, docW2] 0).1 rfl,
   (limitDocuments_sign_semantics [docW1, docW2] (-5)).2.2.2 (by decide)⟩

/-- C6: an iterator constructed over a non-existing table answers `false` to
the first `next()` with no latched error and drains to zero documents, and the
`find` reply over an unknown collection is `{ ok: 1.0, n: 0 }`. -/
theorem find_nonexisting_collection (produced : List (List Document)) :
    (iterNext (queryDocuments false produced)).1 = false ∧
    (queryDocuments false produced).latchedErr = none ∧
    iterDrain (queryDocuments false produced) = [] ∧
    msgFindReply false produced = [("ok", BValue.double 1), ("n", BValue.int32 0)] :=
  ⟨rfl, rfl, rfl, rfl⟩

/-- C4: collection-name validation in `CreateCollection` is a pure total
function of the candidate string: the call is rejected with
`ErrInvalidTableName` exactly when the name fails the regex
`^[a-zA-Z_][a-zA-Z0-9_]\x7b0,119\x7d$` or begins with the reserved metadata
prefix — for every choice of schema state and backend outcome. -/
theorem createCollection_invalidName_iff (fmtName : String → String)
    (reservedPre : String) (schema : Option PgSchemaState) (coll : String)
    (execResult : ExecCreateResult) :
    (CreateCollection fmtName reservedPre schema coll execResult).1 =
        Except.error PgErr.invalidTableName ↔
      (validateCollectionNameRe coll = false ∨ strHasPre reservedPre coll = true) := by
  unfold CreateCollection
  by_cases hv : (!validateCollectionNameRe coll || strHasPre reservedPre coll) = true
  · rw [if_pos hv]
    simpa using hv
  · rw [if_neg hv]
    have hv' : validateCollectionNameRe coll = true ∧ strHasPre reservedPre coll = false := by
      simpa [Bool.or_eq_true, Bool.not_eq_true'] using hv
    cases schema with
    | none => simp [hv'.1, hv'.2]
    | some s =>
      cases execResult <;> simp_all <;> split_ifs <;> simp_all

/-- C3: with a valid name and an existing schema, `CreateCollection` fails with
`ErrAlreadyExist` exactly in the duplicate cases — the computed table is
already in the schema, or the `CREATE TABLE` is reached (table absent, no
settings entry) and the backend reports one of the three duplicate codes — and
in the path that reaches the backend it issues the settings update first and
the `CREATE TABLE` second. -/
theorem createCollection_alreadyExist_iff (fmtName : String → String)
    (reservedPre : String) (s : PgSchemaState) (coll : String)
    (execResult : ExecCreateResult)
    (hname : validateCollectionNameRe coll = true)
    (hpre : strHasPre reservedPre coll = false) :
    ((CreateCollection fmtName reservedPre (some s) coll execResult).1 =
        Except.error PgErr.alreadyExist ↔
      (s.tables.contains (fmtName coll) = true ∨
       (s.tables.contains (fmtName coll) = false ∧
        assocHas s.settingsCollections coll = false ∧
        execResult.isDuplicate = true))) ∧
    (s.tables.contains (fmtName coll) = false →
     assocHas s.settingsCollections coll = false →
     (CreateCollection fmtName reservedPre (some s) coll execResult).2 =
       [PgEffect.updateSettings (assocSet s.settingsCollections coll (fmtName coll)),
        PgEffect.createTable (fmtName coll)]) := by
  unfold CreateCollection
  rw [if_neg (by simp [hname, hpre])]
  cases execResult <;> simp_all [ExecCreateResult.isDuplicate] <;>
    split_ifs <;> simp_all

/-- Evaluation of `createCollection_alreadyExist_iff` at a concrete schema with
no tables and an empty catalog, the backend reporting `duplicate_table`. -/
theorem createCollection_alreadyExist_iff_witness :
    ((CreateCollection id "_f" (some pgSchemaW2) "users"
        ExecCreateResult.duplicateTable).1 = Except.error PgErr.alreadyExist ↔
      (pgSchemaW2.tables.contains (id "users") = true ∨
       (pgSchemaW2.tables.contains (id "users") = false ∧
        assocHas pgSchemaW2.settingsCollections "users" = false ∧
        ExecCreateResult.duplicateTable.isDuplicate = true))) ∧
    (pgSchemaW2.tables.contains (id "users") = false →
     assocHas pgSchemaW2.settingsCollections "users" = false →
     (CreateCollection id "_f" (some pgSchemaW2) "users"
        ExecCreateResult.duplicateTable).2 =
       [PgEffect.updateSettings (assocSet pgSchemaW2.settingsCollections "users" (id "users")),
        PgEffect.createTable (id "users")]) :=
  createCollection_alreadyExist_iff id "_f" pgSchemaW2 "users"
    ExecCreateResult.duplicateTable (by decide) (by decide)

/-- C9: when the settings document already maps the collection name but the
physical table is absent, `CreateCollection` succeeds immediately — no
`CREATE TABLE`, no settings update, no `ErrAlreadyExist` — leaving the
dangling catalog entry in place. -/
theorem createCollection_dangling_entry_ok (fmtName : String → String)
    (reservedPre : String) (s : PgSchemaState) (coll : String)
    (execResult : ExecCreateResult)
    (hname : validateCollectionNameRe coll = true)
    (hpre : strHasPre reservedPre coll = false)
    (htab : s.tables.contains (fmtName coll) = false)
    (hhas : assocHas s.settingsCollections coll = true) :
    CreateCollection fmtName reservedPre (some s) coll execResult =
      (Except.ok (), []) := by
  unfold CreateCollection
  rw [if_neg (by simp [hname, hpre])]
  have htab' : fmtName coll ∉ s.tables := by simpa using htab
  simp [htab', hhas]

/-- Evaluation of `createCollection_dangling_entry_ok` at a concrete schema
whose catalog maps `users` while no physical table exists. -/
theorem createCollection_dangling_entry_ok_witness :
    CreateCollection id "_f" (some pgSchemaW) "users" ExecCreateResult.ok =
      (Except.ok (), []) :=
  createCollection_dangling_entry_ok id "_f" pgSchemaW "users" ExecCreateResult.ok
    (by decide) (by decide) (by decide) (by decide)

/-! ## Helper lemmas: code-point order -/

/-- `lexLe` is total. -/
theorem lexLe_total : ∀ as bs : List Char, lexLe as bs = true ∨ lexLe bs as = true := by
  intro as
  induction as with
  | nil => intro bs; left; rfl
  | cons a as ih =>
    intro bs
    cases bs with
    | nil => right; rfl
    | cons b bs =>
      by_cases h1 : a.toNat < b.toNat
      · left; simp [lexLe, h1]
      · by_cases h2 : b.toNat < a.toNat
        · right; simp [lexLe, h2]
        · rcases ih bs with h | h
          · left; simp [lexLe, h1, h2, h]
          · right; simp [lexLe, h1, h2, h]

/-- `lexLe` is transitive. -/
theorem lexLe_trans : ∀ as bs cs : List Char,
    lexLe as bs = true → lexLe bs cs = true → lexLe as cs = true := by
  intro as
  induction as with
  | nil => intro bs cs _ _; rfl
  | cons a as ih =>
    intro bs cs hab hbc
    cases bs with
    | nil => simp [lexLe] at hab
    | cons b bs =>
      cases cs with
      | nil => simp [lexLe] at hbc
      | cons c cs =>
        simp only [lexLe] at hab hbc ⊢
        split_ifs at hab hbc ⊢ <;> first
          | rfl
          | omega
          | (exact ih bs cs hab hbc)

/-- Code-point order on strings is total. -/
theorem strLe_total (a b : String) : (strLe a b || strLe b a) = true := by
  rw [Bool.or_eq_true]
  exact lexLe_total a.toList b.toList

/-- Code-point order on strings is transitive. -/
theorem strLe_trans (a b c : String) :
    strLe a b = true → strLe b c = true → strLe a c = true :=
  lexLe_trans a.toList b.toList c.toList

/-- C5: for an existing schema, `Collections` succeeds with the catalog's
collection names sorted by code-point order — whatever order the stored
mapping has — and for an absent schema it fails with `ErrSchemaNotExist`. -/
theorem collections_sorted_on_read (s : PgSchemaState) :
    (∃ names, Collections (some s) = Except.ok names ∧
      names.Pairwise (fun a b => strLe a b = true) ∧
      names.Perm (s.settingsCollections.map Prod.fst)) ∧
    Collections none = Except.error PgErr.schemaNotExist := by
  refine ⟨⟨(s.settingsCollections.map Prod.fst).mergeSort strLe, rfl, ?_,
    List.mergeSort_perm _ _⟩, rfl⟩
  exact List.sorted_mergeSort (fun a b c => strLe_trans a b c)
    (fun a b => strLe_total a b) _

end FerretDB
